import Mathlib

/-!
# komibot: moderation store, escalation policy and reports

A shallow embedding of `src/server.js`.

* The SQLite tables `members`, `logs`, `punishments`, `tickets` are lists of rows; a
  `Db` is the four tables.  Row order in a list is storage order and carries no meaning:
  every `ORDER BY id DESC LIMIT 1` of the source is modelled by `maxById`, which looks at
  the `id` column only.
* `TEXT` columns are `String`s (`Option String` where the source can store `NULL`).
  SQLite compares `TEXT` values with the BINARY collation, i.e. bytewise on the UTF-8
  encoding, which is the lexicographic order of the code points; `sqlLt` / `sqlLe` are
  that order.  Timestamps are never parsed by the source: `endAt > ?` and
  `timestamp >= ?` are comparisons of text.
  An instant is therefore its stored text, and "before" and "after" are the order of
  the texts, which is the chronological order on the texts that `toISOString` produces
  for the years 0000 to 9999.
* `new Date().toISOString()` is an input of the model: every clock read of the source is
  a `String` argument (`computeNextAction` reads the clock twice, so it takes two).
* `durationHours INTEGER` is `Option Int`; `Number(durationHours || 0)` is then the
  integer itself, with 0 for `NULL`.  `count INTEGER` of `tickets` is `Int`.
* A handler is a function of the database and of the request fields it reads; a handler
  that writes returns the new database next to its answer.
-/

namespace Komibot

/-! ## Tables -/

/-- Row of `members` (`id TEXT PRIMARY KEY, guildId TEXT, name TEXT, joinedAt TEXT`). -/
structure Member where
  id : String
  guildId : Option String
  name : String
  joinedAt : String
  deriving DecidableEq, Repr

/-- Row of `logs`. -/
structure LogRow where
  id : Int
  memberId : String
  memberName : String
  guildId : Option String
  channelId : String
  channelName : String
  message : String
  timestamp : String
  deriving DecidableEq, Repr

/-- Row of `punishments`; `type` is the text `warn`, `mute` or `ban`. -/
structure Punishment where
  id : Int
  memberId : String
  memberName : String
  type : String
  reason : String
  channelId : String
  channelName : String
  timestamp : String
  durationHours : Option Int
  endAt : Option String
  deriving DecidableEq, Repr

/-- Row of `tickets`. -/
structure Ticket where
  id : Int
  agentId : String
  agentName : String
  count : Int
  timestamp : String
  deriving DecidableEq, Repr

/-- The database: the four tables. -/
structure Db where
  members : List Member
  logs : List LogRow
  punishments : List Punishment
  tickets : List Ticket
  deriving DecidableEq, Repr

/-! ## SQL text comparison -/

/-- SQL `x < y` on two `TEXT` values (BINARY collation). -/
def sqlLt (x y : String) : Bool := decide (x.toList < y.toList)

/-- SQL `x <= y` on two `TEXT` values (BINARY collation). -/
def sqlLe (x y : String) : Bool := decide (x.toList ≤ y.toList)

/-- SQL `x > y`. -/
def sqlGt (x y : String) : Bool := sqlLt y x

/-- SQL `x >= y`. -/
def sqlGe (x y : String) : Bool := sqlLe y x

/-! ## Policy helpers (`server.js` lines 86-121) -/

/-- `ORDER BY id DESC LIMIT 1`: the row with the greatest `id`, `none` on no rows. -/
def maxById : List Punishment → Option Punishment
  | [] => none
  | p :: ps =>
    match maxById ps with
    | none => some p
    | some b => if b.id < p.id then some p else some b

/-- The `WHERE` clause of `hasActiveMute`:
`memberId=? AND type='mute' AND endAt IS NOT NULL AND endAt > ?`. -/
def activeMuteRow (memberId nowIso : String) (p : Punishment) : Bool :=
  p.memberId == memberId && p.type == "mute" &&
    (match p.endAt with
     | none => false
     | some e => sqlGt e nowIso)

/-- The `WHERE` clause of `getLastCompletedAction`:
`memberId=? AND (type='warn' OR (type='mute' AND (endAt IS NULL OR endAt <= ?)))`. -/
def completedRow (memberId nowIso : String) (p : Punishment) : Bool :=
  p.memberId == memberId &&
    (p.type == "warn" ||
      (p.type == "mute" &&
        (match p.endAt with
         | none => true
         | some e => sqlLe e nowIso)))

/-- `getLastCompletedAction(db, memberId)`, the clock read being `nowIso`. -/
def getLastCompletedAction (db : Db) (memberId nowIso : String) : Option Punishment :=
  maxById (db.punishments.filter (completedRow memberId nowIso))

/-- `hasActiveMute(db, memberId)`, the clock read being `nowIso`. -/
def hasActiveMute (db : Db) (memberId nowIso : String) : Option Punishment :=
  maxById (db.punishments.filter (activeMuteRow memberId nowIso))

/-- The object returned by `computeNextAction`:
`{action:'activeMute', until}`, `{action:'warn'}` or `{action:'mute', hours}`. -/
inductive Decision where
  | activeMute (untilAt : Option String)
  | warn
  | mute (hours : Nat)
  deriving DecidableEq, Repr

/-- `computeNextAction(db, memberId)`.  `now1` is the clock read inside `hasActiveMute`,
`now2` the later one inside `getLastCompletedAction`. -/
def computeNextAction (db : Db) (memberId now1 now2 : String) : Decision :=
  match hasActiveMute db memberId now1 with
  | some active => Decision.activeMute active.endAt
  | none =>
    match getLastCompletedAction db memberId now2 with
    | none => Decision.warn
    | some last =>
      if last.type = "warn" then Decision.mute 2
      else if last.type = "mute" then
        let h : Int := last.durationHours.getD 0
        if h ≤ 2 then Decision.mute 4
        else if h ≤ 4 then Decision.mute 6
        else Decision.warn
      else Decision.warn

/-! ## Answers that are not a 200 -/

/-- What a handler answers when it does not answer 200. -/
inductive Failure where
  /-- The handler ran `res.status(400).json({ error })`. -/
  | badRequest (error : String)
  /-- The handler threw `RangeError: Invalid time value`. -/
  | rangeError
  /-- The handler threw `SqliteError: integer overflow`. -/
  | integerOverflow
  deriving DecidableEq, Repr

/-! ## Member list (`GET /api/members`, lines 237-268)

The handler runs six queries and joins their rows in JavaScript.  Two things that the
source leaves to its runtime decide what is answered and are modelled here: the `SUM`
of SQLite raises `integer overflow` when a sum of `INTEGER` values leaves the signed
64-bit range, and a number read from the database is a JavaScript double.  A lookup
`map[key]` in a plain object also finds the properties of `Object.prototype`. -/

/-- The least SQLite `INTEGER`. -/
def int64Min : Int := -9223372036854775808

/-- The greatest SQLite `INTEGER`. -/
def int64Max : Int := 9223372036854775807

/-- The running total of `SUM` over `INTEGER` values, fed in table order; `none` is the
error `integer overflow`, raised when a partial sum leaves the 64-bit range. -/
def sqlSumFrom (acc : Int) : List Int → Option Int
  | [] => some acc
  | v :: vs =>
    if int64Min ≤ acc + v ∧ acc + v ≤ int64Max then sqlSumFrom (acc + v) vs else none

/-- `SUM(count)` over the values of one group. -/
def sqlSum (vs : List Int) : Option Int := sqlSumFrom 0 vs

/-- The natural number `a` rounded to a multiple of `2 ^ s`, ties to the even multiple. -/
def roundAt (a s : Nat) : Nat :=
  let q := a / 2 ^ s
  let r := a % 2 ^ s
  let half := 2 ^ (s - 1)
  (if half < r ∨ (r = half ∧ q % 2 = 1) then q + 1 else q) * 2 ^ s

/-- Search for the binade of `a`, starting at `2 ^ (53 + s)`. -/
def natToDoubleFrom (s : Nat) : Nat → Nat → Nat
  | 0, a => roundAt a s
  | fuel + 1, a => if a < 2 ^ (53 + s) then roundAt a s else natToDoubleFrom (s + 1) fuel a

/-- The double nearest to the natural number `a < 2 ^ 64`: `a` itself below `2 ^ 53`,
otherwise `a` rounded to 53 significant bits. -/
def natToDouble (a : Nat) : Nat := natToDoubleFrom 0 11 a

/-- The JavaScript number that `better-sqlite3` returns for the `INTEGER` value `n`. -/
def toDouble (n : Int) : Int :=
  if 0 ≤ n then (natToDouble n.toNat : Int) else -(natToDouble n.natAbs : Int)

/-- The property names that a plain object inherits from `Object.prototype`. -/
def objectPrototypeNames : List String :=
  ["constructor", "__defineGetter__", "__defineSetter__", "hasOwnProperty",
    "__lookupGetter__", "__lookupSetter__", "isPrototypeOf", "propertyIsEnumerable",
    "toString", "valueOf", "__proto__", "toLocaleString"]

/-- The value of an expression `map[key] || dflt`: a value of the expected kind, or the
property of `Object.prototype` of that name (a function, or the prototype object for
`__proto__`), which is truthy. -/
inductive Looked (α : Type) where
  | value (a : α)
  | inherited (name : String)
  deriving DecidableEq, Repr

/-- `Object.fromEntries(rows)[key] || dflt`: the last row of that key wins; without such
a row the lookup falls to `Object.prototype`.  In every use below a falsy own value is
`dflt` itself. -/
def lookupOr {α : Type} (rows : List (String × α)) (key : String) (dflt : α) : Looked α :=
  match rows.reverse.lookup key with
  | some v => Looked.value v
  | none =>
    if objectPrototypeNames.contains key then Looked.inherited key else Looked.value dflt

/-- The groups of a `GROUP BY`: the distinct values of the column.  The order of the
groups plays no part, since the rows are only read through `Object.fromEntries`. -/
def groupKeys (keys : List String) : List String := keys.eraseDups

/-- The rows of `SELECT memberId, COUNT(*) as c FROM punishments WHERE type=? GROUP BY
memberId`, as pairs `[r.memberId, r.c]`. -/
def countRows (db : Db) (type : String) : List (String × Nat) :=
  (groupKeys ((db.punishments.filter (fun p => p.type == type)).map (fun p => p.memberId))).map
    (fun k => (k, natToDouble
      (db.punishments.filter (fun p => p.type == type && p.memberId == k)).length))

/-- The columns `memberId, type, timestamp` selected for `last_punishment`. -/
structure LastPunishment where
  memberId : String
  type : String
  timestamp : String
  deriving DecidableEq, Repr

/-- The result of `SELECT MAX(id) FROM punishments GROUP BY memberId`. -/
def maxIds (db : Db) : List Int :=
  (groupKeys (db.punishments.map (fun p => p.memberId))).filterMap
    (fun k => (maxById (db.punishments.filter (fun p => p.memberId == k))).map (fun p => p.id))

/-- The rows of `SELECT memberId, type, timestamp FROM punishments WHERE id IN (...)`, as
pairs `[r.memberId, r]`. -/
def lastRows (db : Db) : List (String × Option LastPunishment) :=
  (db.punishments.filter (fun p => (maxIds db).contains p.id)).map
    (fun p => (p.memberId, some ⟨p.memberId, p.type, p.timestamp⟩))

/-- The `count` values of the batches of one agent, in table order. -/
def agentCounts (db : Db) (agentId : String) : List Int :=
  (db.tickets.filter (fun t => t.agentId == agentId)).map (fun t => t.count)

/-- The sums of the given groups as pairs `[r.memberId, r.tickets]`; `none` when one
`SUM` raises `integer overflow`. -/
def sumGroups (db : Db) : List String → Option (List (String × Int))
  | [] => some []
  | k :: ks =>
    match sqlSum (agentCounts db k), sumGroups db ks with
    | some total, some rest => some ((k, toDouble total) :: rest)
    | _, _ => none

/-- The rows of `SELECT agentId as memberId, SUM(count) as tickets FROM tickets GROUP BY
agentId`; `none` when the statement raises `integer overflow`. -/
def ticketsAgg (db : Db) : Option (List (String × Int)) :=
  sumGroups db (groupKeys (db.tickets.map (fun t => t.agentId)))

/-- One element of the array answered by `GET /api/members`, before `res.json`
serialises it. -/
structure MemberEntry where
  user_id : String
  user_tag : String
  total_warns : Looked Nat
  total_mutes : Looked Nat
  total_bans : Looked Nat
  last_punishment : Looked (Option LastPunishment)
  tickets : Looked Int
  deriving DecidableEq, Repr

/-- The callback of `members.map(m => ...)`, given the rows behind `mapWarn`, `mapMute`,
`mapBan`, `mapLast` and `mapTic`. -/
def memberEntry (warns mutes bans : List (String × Nat))
    (lastP : List (String × Option LastPunishment)) (tickets : List (String × Int))
    (m : Member) : MemberEntry :=
  { user_id := m.id
    user_tag := if m.name = "" then m.id else m.name
    total_warns := lookupOr warns m.id 0
    total_mutes := lookupOr mutes m.id 0
    total_bans := lookupOr bans m.id 0
    last_punishment := lookupOr lastP m.id none
    tickets := lookupOr tickets m.id 0 }

/-- The `WHERE` clause `guildId IS NULL OR guildId=?`. -/
def inGuild (g : String) (m : Member) : Bool :=
  match m.guildId with
  | none => true
  | some x => x == g

/-- Handler of `GET /api/members`; `guild` is `req.query.guild` (`none` when absent).
When the tickets query raises `integer overflow` the handler throws and nothing is
listed. -/
def apiMembers (db : Db) (guild : Option String) : Except Failure (List MemberEntry) :=
  let guildId : Option String :=
    match guild with
    | none => none
    | some g => if g = "" then none else some g
  let members : List Member :=
    match guildId with
    | some g => db.members.filter (inGuild g)
    | none => db.members
  match ticketsAgg db with
  | none => Except.error Failure.integerOverflow
  | some tickets =>
    Except.ok (members.map
      (memberEntry (countRows db "warn") (countRows db "mute") (countRows db "ban")
        (lastRows db) tickets))

/-! ## Clearing one member (`POST /api/clear/member`, lines 170-176) -/

/-- The `deleted` object of the answer: the two `changes` counters. -/
structure Deleted where
  logs : Nat
  punishments : Nat
  deriving DecidableEq, Repr

/-- Handler of `POST /api/clear/member`; `memberId` is `req.body.memberId` (`none` when
absent).  Returns the database after the call and the answer. -/
def apiClearMember (db : Db) (memberId : Option String) : Db × Except Failure Deleted :=
  match memberId with
  | none => (db, Except.error (Failure.badRequest "memberId required"))
  | some m =>
    if m = "" then (db, Except.error (Failure.badRequest "memberId required"))
    else
      let a := (db.logs.filter (fun r => r.memberId == m)).length
      let logs1 := db.logs.filter (fun r => !(r.memberId == m))
      let b := (db.punishments.filter (fun p => p.memberId == m)).length
      let punishments1 := db.punishments.filter (fun p => !(p.memberId == m))
      (⟨db.members, logs1, punishments1, db.tickets⟩, Except.ok ⟨a, b⟩)

/-! ## Monthly history (`GET /api/history/:month`, lines 270-279)

The handler builds its window with `dayjs` and JavaScript `Date`, which are not part of
the repository.  They are modelled at minute precision on broken-down Gregorian dates.
`dayjs` without its `utc` plugin does month arithmetic on the local fields of the date,
so the UTC offset of the process, `tz` minutes east of UTC with `-1440 < tz < 1440` and
no daylight saving, is an input of the model. -/

/-- Gregorian leap year. -/
def isLeapYear (y : Int) : Bool :=
  y % 4 == 0 && (y % 100 != 0 || y % 400 == 0)

/-- Number of days of month `m` (1 to 12) of year `y`. -/
def daysInMonth (y : Int) (m : Nat) : Nat :=
  if m = 2 then (if isLeapYear y then 29 else 28)
  else if m = 4 ∨ m = 6 ∨ m = 9 ∨ m = 11 then 30
  else 31

/-- The instant held by a `Date`, as broken-down fields: month 1 to 12, day of the month,
minute of the day 0 to 1439. -/
structure Civil where
  year : Int
  month : Nat
  day : Nat
  minute : Nat
  deriving DecidableEq, Repr

/-- The same time of day on the previous calendar day. -/
def dayBefore (c : Civil) : Civil :=
  if 1 < c.day then ⟨c.year, c.month, c.day - 1, c.minute⟩
  else if 1 < c.month then ⟨c.year, c.month - 1, daysInMonth c.year (c.month - 1), c.minute⟩
  else ⟨c.year - 1, 12, 31, c.minute⟩

/-- The same time of day on the next calendar day. -/
def dayAfter (c : Civil) : Civil :=
  if c.day < daysInMonth c.year c.month then ⟨c.year, c.month, c.day + 1, c.minute⟩
  else if c.month < 12 then ⟨c.year, c.month + 1, 1, c.minute⟩
  else ⟨c.year + 1, 1, 1, c.minute⟩

/-- The fields `delta` minutes later (earlier when negative), for `-1440 < delta < 1440`:
from UTC fields to local fields with `delta = tz`, and back with `delta = -tz`. -/
def shiftMinutes (delta : Int) (c : Civil) : Civil :=
  let t : Int := (c.minute : Int) + delta
  if t < 0 then
    let d := dayBefore c
    ⟨d.year, d.month, d.day, (t + 1440).toNat⟩
  else if 1440 ≤ t then
    let d := dayAfter c
    ⟨d.year, d.month, d.day, (t - 1440).toNat⟩
  else ⟨c.year, c.month, c.day, t.toNat⟩

/-- `d.add(1, 'month')` of `dayjs` in local mode, on a date given by its UTC fields:
`set('month', $M + 1)` puts the local date on day 1, calls `setMonth($M + 1)` (month 12
is January of the next year), then sets the day to `min($D, daysInMonth)`. -/
def dayjsAddMonth (tz : Int) (utc : Civil) : Civil :=
  let l := shiftMinutes tz utc
  let y1 : Int := if l.month = 12 then l.year + 1 else l.year
  let m1 : Nat := if l.month = 12 then 1 else l.month + 1
  let d1 : Nat := min l.day (daysInMonth y1 m1)
  shiftMinutes (-tz) ⟨y1, m1, d1, l.minute⟩

/-- The regular expression class `\d`. -/
def isDigit (c : Char) : Bool := decide (48 ≤ c.toNat) && decide (c.toNat ≤ 57)

/-- Value of a decimal digit. -/
def digitVal (c : Char) : Nat := c.toNat - 48

/-- The test `/^\d{4}-\d{2}$/.test(month)`. -/
def monthFormat (month : String) : Bool :=
  match month.toList with
  | [y1, y2, y3, y4, dash, m1, m2] =>
    isDigit y1 && isDigit y2 && isDigit y3 && isDigit y4 && dash == '-' &&
      isDigit m1 && isDigit m2
  | _ => false

/-- The date `dayjs(month + '-01T00:00:00Z')` for a `month` that passed `monthFormat`:
the text ends in `Z`, so it is `new Date(text)`, the first instant of that month in UTC,
and `none` (an invalid date) when the month number is not 01 to 12. -/
def parseStart (month : String) : Option Civil :=
  match month.toList with
  | [y1, y2, y3, y4, _, m1, m2] =>
    let y : Nat := digitVal y1 * 1000 + digitVal y2 * 100 + digitVal y3 * 10 + digitVal y4
    let m : Nat := digitVal m1 * 10 + digitVal m2
    if 1 ≤ m ∧ m ≤ 12 then some ⟨(y : Int), m, 1, 0⟩ else none
  | _ => none

/-- The decimal digit `n % 10` as a character. -/
def digitChar (n : Nat) : Char := Char.ofNat (48 + n % 10)

/-- Two decimal digits. -/
def pad2 (n : Nat) : List Char := [digitChar (n / 10), digitChar n]

/-- Four decimal digits. -/
def pad4 (n : Nat) : List Char :=
  [digitChar (n / 1000), digitChar (n / 100), digitChar (n / 10), digitChar n]

/-- Six decimal digits. -/
def pad6 (n : Nat) : List Char :=
  [digitChar (n / 100000), digitChar (n / 10000), digitChar (n / 1000), digitChar (n / 100),
    digitChar (n / 10), digitChar n]

/-- The year of `Date.prototype.toISOString`: four digits from 0 to 9999, otherwise a
sign and six digits. -/
def isoYear (y : Int) : List Char :=
  if 0 ≤ y ∧ y ≤ 9999 then pad4 y.toNat
  else if y < 0 then '-' :: pad6 y.natAbs
  else '+' :: pad6 y.toNat

/-- The text `Date.prototype.toISOString()` of a date on a whole minute:
`YYYY-MM-DDTHH:mm:00.000Z`. -/
def toISOString (c : Civil) : String :=
  String.mk (isoYear c.year ++ '-' :: pad2 c.month ++ '-' :: pad2 c.day ++
    'T' :: pad2 (c.minute / 60) ++ ':' :: pad2 (c.minute % 60) ++ ":00.000Z".toList)

/-- The `WHERE` clause `timestamp >= ? AND timestamp < ?`. -/
def inWindow (start stop timestamp : String) : Bool :=
  sqlGe timestamp start && sqlLt timestamp stop

/-- The answer of `GET /api/history/:month`. -/
structure MonthHistory where
  month : String
  logs : List LogRow
  punishments : List Punishment
  tickets : List Ticket
  deriving DecidableEq, Repr

/-- Handler of `GET /api/history/:month` in a process whose local time is `tz` minutes
east of UTC.  On an invalid date `start.toISOString()` throws before any query runs. -/
def apiHistoryMonth (tz : Int) (db : Db) (month : String) : Except Failure MonthHistory :=
  if monthFormat month then
    match parseStart month with
    | none => Except.error Failure.rangeError
    | some start =>
      let stop := dayjsAddMonth tz start
      let s := toISOString start
      let e := toISOString stop
      Except.ok
        { month := month
          logs := db.logs.filter (fun r => inWindow s e r.timestamp)
          punishments := db.punishments.filter (fun r => inWindow s e r.timestamp)
          tickets := db.tickets.filter (fun r => inWindow s e r.timestamp) }
  else Except.error (Failure.badRequest "month format YYYY-MM")

/-! ## Vocabulary of the statements and sample data -/

/-- The row `p` with its `timestamp` column replaced by `f p`. -/
def retime (f : Punishment → String) (p : Punishment) : Punishment :=
  ⟨p.id, p.memberId, p.memberName, p.type, p.reason, p.channelId, p.channelName, f p,
    p.durationHours, p.endAt⟩

/-- A punishment row with the columns the policy reads; the others are empty. -/
def mkPunishment (id : Int) (memberId type timestamp : String) (durationHours : Option Int)
    (endAt : Option String) : Punishment :=
  ⟨id, memberId, "", type, "", "", "", timestamp, durationHours, endAt⟩

/-- A log row of a member at a timestamp. -/
def mkLog (id : Int) (memberId timestamp : String) : LogRow :=
  ⟨id, memberId, "", none, "", "", "hello", timestamp⟩

/-- A warn of member `M1`. -/
def warnRow : Punishment :=
  mkPunishment 1 "M1" "warn" "2024-01-01T00:00:00.000Z" none none

/-- A two-hour mute of member `M1` that ends at 02:00. -/
def muteRow : Punishment :=
  mkPunishment 2 "M1" "mute" "2024-01-01T00:00:00.000Z" (some 2)
    (some "2024-01-01T02:00:00.000Z")

/-- Member `M1` was warned, then muted for two hours until 02:00. -/
def dbWarnMute : Db := ⟨[], [], [warnRow, muteRow], []⟩

/-- A mute of member `M1` with the given `durationHours` and no `endAt`. -/
def openMute (durationHours : Option Int) : Punishment :=
  mkPunishment 1 "M1" "mute" "2024-01-01T00:00:00.000Z" durationHours none

/-- The only punishment of member `M1` is an open mute of the given `durationHours`. -/
def dbOpenMute (durationHours : Option Int) : Db := ⟨[], [], [openMute durationHours], []⟩

/-- Three members: `A` in guild `G1`, `B` in guild `G2`, `C` in no guild. -/
def dbGuilds : Db :=
  ⟨[⟨"A", some "G1", "alice", "2024-01-01T00:00:00.000Z"⟩,
    ⟨"B", some "G2", "bob", "2024-01-01T00:00:00.000Z"⟩,
    ⟨"C", none, "", "2024-01-01T00:00:00.000Z"⟩], [], [], []⟩

/-- Member `A` of guild `G1`, and two ticket batches of `2 ^ 62` tickets closed by agent
`X`, as written by two calls of `POST /api/ticket` with `count` 4611686018427387904. -/
def dbOverflow : Db :=
  ⟨[⟨"A", some "G1", "alice", "2024-01-01T00:00:00.000Z"⟩], [], [],
    [⟨1, "X", "", 4611686018427387904, "2024-01-01T00:00:00.000Z"⟩,
     ⟨2, "X", "", 4611686018427387904, "2024-01-01T00:00:01.000Z"⟩]⟩

/-- Members `A`, `constructor` and `B` with a warn of `A`, and ticket batches of
`2 ^ 53` and 1 tickets closed by `B`. -/
def dbRollup : Db :=
  ⟨[⟨"A", some "G1", "alice", "2024-01-01T00:00:00.000Z"⟩,
    ⟨"constructor", none, "", "2024-01-01T00:00:00.000Z"⟩,
    ⟨"B", some "G1", "bob", "2024-01-01T00:00:00.000Z"⟩], [],
    [mkPunishment 1 "A" "warn" "2024-01-01T00:00:00.000Z" none none],
    [⟨1, "B", "bob", 9007199254740992, "2024-01-01T00:00:00.000Z"⟩,
     ⟨2, "B", "bob", 1, "2024-01-01T00:00:01.000Z"⟩]⟩

/-- Logs and punishments of the members `M1` and `M2`, one member row, one ticket batch. -/
def dbTwoMembers : Db :=
  ⟨[⟨"M1", none, "one", "2024-01-01T00:00:00.000Z"⟩],
    [mkLog 1 "M1" "2024-02-01T00:00:00.000Z", mkLog 2 "M2" "2024-02-10T08:00:00.000Z",
      mkLog 3 "M1" "2024-03-01T00:00:00.000Z"],
    [mkPunishment 1 "M1" "warn" "2024-01-01T00:00:00.000Z" none none,
      mkPunishment 2 "M2" "ban" "2024-03-30T12:00:00.000Z" none none],
    [⟨1, "M1", "one", 3, "2024-02-29T23:59:59.999Z"⟩]⟩

/-- The first instant of the month after month `m` of year `y`, in UTC. -/
def firstOfNextMonth (y : Int) (m : Nat) : Civil :=
  if m = 12 then ⟨y + 1, 1, 1, 0⟩ else ⟨y, m + 1, 1, 0⟩

/-- A ban of member `M1`, recorded last. -/
def banRow : Punishment :=
  mkPunishment 3 "M1" "ban" "2024-01-01T00:30:00.000Z" none none

/-! ## Lemmas on the text order -/

theorem sqlLt_iff (x y : String) : sqlLt x y = true ↔ x < y := by
  simp [sqlLt, String.lt_iff_toList_lt]

theorem sqlLe_iff (x y : String) : sqlLe x y = true ↔ x ≤ y := by
  simp [sqlLe, String.le_iff_toList_le]

theorem sqlGt_iff_not_sqlLe (x y : String) : sqlGt x y = true ↔ sqlLe x y = false := by
  rw [sqlGt, sqlLt_iff, ← Bool.not_eq_true, sqlLe_iff, not_le]

/-! ## Lemmas on `maxById` -/

theorem maxById_eq_none {l : List Punishment} : maxById l = none ↔ l = [] := by
  cases l with
  | nil => simp [maxById]
  | cons p ps =>
    simp only [maxById]
    cases maxById ps with
    | none => simp
    | some b => by_cases h : b.id < p.id <;> simp [h]

theorem maxById_mem {l : List Punishment} {p : Punishment} (h : maxById l = some p) :
    p ∈ l := by
  induction l generalizing p with
  | nil => simp [maxById] at h
  | cons a as ih =>
    simp only [maxById] at h
    cases hm : maxById as with
    | none =>
      rw [hm] at h
      simp only [Option.some.injEq] at h
      simp [h]
    | some b =>
      rw [hm] at h
      by_cases hlt : b.id < a.id
      · simp only [hlt, if_true, Option.some.injEq] at h
        simp [h]
      · simp only [hlt, if_false, Option.some.injEq] at h
        subst h
        exact List.mem_cons_of_mem _ (ih hm)

theorem maxById_ge {l : List Punishment} {p : Punishment} (h : maxById l = some p) :
    ∀ q ∈ l, q.id ≤ p.id := by
  induction l generalizing p with
  | nil => simp
  | cons a as ih =>
    simp only [maxById] at h
    intro q hq
    cases hm : maxById as with
    | none =>
      rw [hm] at h
      simp only [Option.some.injEq] at h
      have hnil : as = [] := maxById_eq_none.mp hm
      subst hnil
      simp only [List.mem_singleton] at hq
      rw [hq, h]
    | some b =>
      rw [hm] at h
      rcases List.mem_cons.mp hq with hqa | hqas
      · by_cases hlt : b.id < a.id
        · simp only [hlt, if_true, Option.some.injEq] at h
          rw [hqa, h]
        · simp only [hlt, if_false, Option.some.injEq] at h
          rw [hqa, ← h]
          exact not_lt.mp hlt
      · have hqb : q.id ≤ b.id := ih hm q hqas
        by_cases hlt : b.id < a.id
        · simp only [hlt, if_true, Option.some.injEq] at h
          rw [← h]
          exact le_trans hqb (le_of_lt hlt)
        · simp only [hlt, if_false, Option.some.injEq] at h
          rw [← h]
          exact hqb

theorem maxById_isSome_of_mem {l : List Punishment} {q : Punishment} (h : q ∈ l) :
    ∃ p, maxById l = some p := by
  cases hm : maxById l with
  | none =>
    rw [maxById_eq_none.mp hm] at h
    simp at h
  | some p => exact ⟨p, rfl⟩

/-- A row whose `id` is strictly above every other row is the one selected. -/
theorem maxById_of_strict {l : List Punishment} {p : Punishment} (hp : p ∈ l)
    (hmax : ∀ q ∈ l, q ≠ p → q.id < p.id) : maxById l = some p := by
  obtain ⟨r, hr⟩ := maxById_isSome_of_mem hp
  have hrl : r ∈ l := maxById_mem hr
  have hpr : p.id ≤ r.id := maxById_ge hr p hp
  by_cases hrp : r = p
  · rw [hr, hrp]
  · exact absurd (hmax r hrl hrp) (not_lt.mpr hpr)

/-! ## Lemmas on the policy helpers -/

theorem activeMuteRow_iff (memberId now : String) (p : Punishment) :
    activeMuteRow memberId now p = true ↔
      p.memberId = memberId ∧ p.type = "mute" ∧ ∃ e, p.endAt = some e ∧ now < e := by
  unfold activeMuteRow
  cases he : p.endAt with
  | none => simp
  | some e => simp [sqlGt, sqlLt_iff, and_assoc]

theorem completedRow_iff (memberId now : String) (p : Punishment) :
    completedRow memberId now p = true ↔
      p.memberId = memberId ∧ (p.type = "warn" ∨ (p.type = "mute" ∧
        (p.endAt = none ∨ ∃ e, p.endAt = some e ∧ e ≤ now))) := by
  unfold completedRow
  cases he : p.endAt with
  | none => simp
  | some e => simp [sqlLe_iff]

theorem hasActiveMute_eq_none_iff (db : Db) (memberId now : String) :
    hasActiveMute db memberId now = none ↔
      ∀ q ∈ db.punishments, activeMuteRow memberId now q = false := by
  unfold hasActiveMute
  rw [maxById_eq_none, List.filter_eq_nil_iff]
  simp

/-- With no mute active at `now1`, the completed rows at a later `now2` are the
completed rows at `now1`. -/
theorem completedRow_later (memberId now1 now2 : String) (hclock : now1 ≤ now2)
    (q : Punishment) (hq : activeMuteRow memberId now1 q = false) :
    completedRow memberId now2 q = completedRow memberId now1 q := by
  unfold activeMuteRow at hq
  unfold completedRow
  cases he : q.endAt with
  | none => rfl
  | some e =>
    rw [he] at hq
    by_cases hm : q.memberId = memberId
    · by_cases ht : q.type = "mute"
      · have hle : ¬ now1 < e := by
          intro hlt
          have : sqlGt e now1 = true := (sqlLt_iff now1 e).mpr hlt
          simp [hm, ht, this] at hq
        have h1 : e ≤ now1 := not_lt.mp hle
        have h2 : e ≤ now2 := le_trans h1 hclock
        simp [hm, ht, (sqlLe_iff e now1).mpr h1, (sqlLe_iff e now2).mpr h2]
      · have hf : (q.type == "mute") = false := by simpa using ht
        simp [hf]
    · have hf : (q.memberId == memberId) = false := by simpa using hm
      simp [hf]

theorem getLastCompletedAction_later (db : Db) (memberId now1 now2 : String)
    (hclock : now1 ≤ now2) (hno : hasActiveMute db memberId now1 = none) :
    getLastCompletedAction db memberId now2 = getLastCompletedAction db memberId now1 := by
  unfold getLastCompletedAction
  have hall := (hasActiveMute_eq_none_iff db memberId now1).mp hno
  have : db.punishments.filter (completedRow memberId now2) =
      db.punishments.filter (completedRow memberId now1) :=
    List.filter_congr (fun q hq => completedRow_later memberId now1 now2 hclock q (hall q hq))
  rw [this]

/-- The two clock reads of `computeNextAction` can be taken to be the first one. -/
theorem computeNextAction_later (db : Db) (memberId now1 now2 : String)
    (hclock : now1 ≤ now2) :
    computeNextAction db memberId now1 now2 = computeNextAction db memberId now1 now1 := by
  unfold computeNextAction
  cases ha : hasActiveMute db memberId now1 with
  | some a => rfl
  | none =>
    simp only [getLastCompletedAction_later db memberId now1 now2 hclock ha]

/-- The spelled-out "no mute is active" gives `hasActiveMute = none`. -/
theorem hasActiveMute_none_of (db : Db) (memberId now : String)
    (hno : ∀ q ∈ db.punishments, q.memberId = memberId → q.type = "mute" →
      ∀ e, q.endAt = some e → ¬ now < e) :
    hasActiveMute db memberId now = none := by
  rw [hasActiveMute_eq_none_iff]
  intro q hq
  rw [← Bool.not_eq_true, activeMuteRow_iff]
  rintro ⟨hm, ht, e, he, hlt⟩
  exact hno q hq hm ht e he hlt

/-- The spelled-out "most recent completed action is `p`" gives
`getLastCompletedAction = some p`. -/
theorem getLastCompletedAction_of (db : Db) (memberId now : String) (p : Punishment)
    (hp : p ∈ db.punishments) (hpc : completedRow memberId now p = true)
    (hmax : ∀ q ∈ db.punishments, q ≠ p → completedRow memberId now q = true → q.id < p.id) :
    getLastCompletedAction db memberId now = some p := by
  unfold getLastCompletedAction
  apply maxById_of_strict
  · exact List.mem_filter.mpr ⟨hp, hpc⟩
  · intro q hq hne
    have := List.mem_filter.mp hq
    exact hmax q this.1 hne this.2

/-- The decision when no mute is active and the last completed action is `p`. -/
theorem computeNextAction_of_last (db : Db) (memberId now1 now2 : String) (p : Punishment)
    (hclock : now1 ≤ now2)
    (hno : ∀ q ∈ db.punishments, q.memberId = memberId → q.type = "mute" →
      ∀ e, q.endAt = some e → ¬ now1 < e)
    (hp : p ∈ db.punishments) (hpc : completedRow memberId now1 p = true)
    (hmax : ∀ q ∈ db.punishments, q ≠ p → completedRow memberId now1 q = true → q.id < p.id) :
    computeNextAction db memberId now1 now2 =
      if p.type = "warn" then Decision.mute 2
      else if p.type = "mute" then
        if p.durationHours.getD 0 ≤ 2 then Decision.mute 4
        else if p.durationHours.getD 0 ≤ 4 then Decision.mute 6
        else Decision.warn
      else Decision.warn := by
  rw [computeNextAction_later db memberId now1 now2 hclock]
  unfold computeNextAction
  rw [hasActiveMute_none_of db memberId now1 hno,
    getLastCompletedAction_of db memberId now1 p hp hpc hmax]

theorem maxById_map_retime (f : Punishment → String) (l : List Punishment) :
    maxById (l.map (retime f)) = (maxById l).map (retime f) := by
  induction l with
  | nil => rfl
  | cons a as ih =>
    simp only [List.map_cons, maxById, ih]
    cases maxById as with
    | none => rfl
    | some b =>
      simp only [Option.map_some']
      by_cases hlt : b.id < a.id
      · have : (retime f b).id < (retime f a).id := hlt
        simp [hlt, this]
      · have : ¬ (retime f b).id < (retime f a).id := hlt
        simp [hlt, this]

theorem filter_map_retime (f : Punishment → String) (pred : Punishment → Bool)
    (hpred : ∀ p, pred (retime f p) = pred p) (l : List Punishment) :
    (l.map (retime f)).filter pred = (l.filter pred).map (retime f) := by
  induction l with
  | nil => rfl
  | cons a as ih =>
    simp only [List.map_cons, List.filter_cons, hpred, ih]
    cases pred a <;> simp

/-- The `timestamp` column of the punishments is not read by the policy. -/
theorem computeNextAction_retime (db : Db) (memberId now1 now2 : String)
    (f : Punishment → String) :
    computeNextAction ⟨db.members, db.logs, db.punishments.map (retime f), db.tickets⟩
      memberId now1 now2 = computeNextAction db memberId now1 now2 := by
  unfold computeNextAction hasActiveMute getLastCompletedAction
  simp only []
  rw [filter_map_retime f (activeMuteRow memberId now1) (fun _ => rfl),
    filter_map_retime f (completedRow memberId now2) (fun _ => rfl),
    maxById_map_retime, maxById_map_retime]
  cases maxById (db.punishments.filter (activeMuteRow memberId now1)) with
  | some a => rfl
  | none =>
    cases maxById (db.punishments.filter (completedRow memberId now2)) with
    | none => rfl
    | some b => rfl

/-! ## The escalation policy -/

/-- C1 (active-mute precedence).  If the member has a mute whose `endAt` is non-null and
strictly after the first clock read, `computeNextAction` answers `activeMute` with `until`
the `endAt` of an active mute of greatest `id`, whatever else is recorded; and an active
mute whose `id` is above every other active mute (in particular the only active one) is
the one answered. -/
theorem computeNextAction_activeMute (db : Db) (memberId now1 now2 : String)
    (h : ∃ p ∈ db.punishments, p.memberId = memberId ∧ p.type = "mute" ∧
      ∃ e, p.endAt = some e ∧ now1 < e) :
    (∃ p e, p ∈ db.punishments ∧ p.memberId = memberId ∧ p.type = "mute" ∧
      p.endAt = some e ∧ now1 < e ∧
      (∀ q ∈ db.punishments, q.memberId = memberId → q.type = "mute" →
        (∃ e', q.endAt = some e' ∧ now1 < e') → q.id ≤ p.id) ∧
      computeNextAction db memberId now1 now2 = Decision.activeMute (some e)) ∧
    (∀ p ∈ db.punishments, ∀ e, p.memberId = memberId → p.type = "mute" →
      p.endAt = some e → now1 < e →
      (∀ q ∈ db.punishments, q ≠ p → q.memberId = memberId → q.type = "mute" →
        (∃ e', q.endAt = some e' ∧ now1 < e') → q.id < p.id) →
      computeNextAction db memberId now1 now2 = Decision.activeMute (some e)) := by
  constructor
  · obtain ⟨p0, hp0, hm0, ht0, e0, he0, hlt0⟩ := h
    have hmem : p0 ∈ db.punishments.filter (activeMuteRow memberId now1) :=
      List.mem_filter.mpr ⟨hp0, (activeMuteRow_iff memberId now1 p0).mpr ⟨hm0, ht0, e0, he0, hlt0⟩⟩
    obtain ⟨a, ha⟩ := maxById_isSome_of_mem hmem
    have hamem := List.mem_filter.mp (maxById_mem ha)
    obtain ⟨hm, ht, e, he, hlt⟩ := (activeMuteRow_iff memberId now1 a).mp hamem.2
    refine ⟨a, e, hamem.1, hm, ht, he, hlt, ?_, ?_⟩
    · intro q hq hqm hqt hqe
      exact maxById_ge ha q
        (List.mem_filter.mpr ⟨hq, (activeMuteRow_iff memberId now1 q).mpr ⟨hqm, hqt, hqe⟩⟩)
    · unfold computeNextAction hasActiveMute
      rw [ha]
      simp only [he]
  · intro p hp e hm ht he hlt hmax
    have hsel : hasActiveMute db memberId now1 = some p := by
      unfold hasActiveMute
      apply maxById_of_strict
      · exact List.mem_filter.mpr
          ⟨hp, (activeMuteRow_iff memberId now1 p).mpr ⟨hm, ht, e, he, hlt⟩⟩
      · intro q hq hne
        have hq2 := List.mem_filter.mp hq
        obtain ⟨hqm, hqt, hqe⟩ := (activeMuteRow_iff memberId now1 q).mp hq2.2
        exact hmax q hq2.1 hne hqm hqt hqe
    unfold computeNextAction
    rw [hsel]
    simp only [he]

/-- C2 (ladder steps).  When no mute is active and the completed action of greatest `id`
is a mute `p`, the decision is `mute 4` for a duration of 2, `mute 6` for 4 and `warn`
for 6; and rewriting the `timestamp` column of every row changes no decision. -/
theorem computeNextAction_ladder (db : Db) (memberId now1 now2 : String) (p : Punishment)
    (hclock : now1 ≤ now2)
    (hno : ∀ q ∈ db.punishments, q.memberId = memberId → q.type = "mute" →
      ∀ e, q.endAt = some e → ¬ now1 < e)
    (hp : p ∈ db.punishments) (hpm : p.memberId = memberId) (hpt : p.type = "mute")
    (hmax : ∀ q ∈ db.punishments, q ≠ p → q.memberId = memberId →
      (q.type = "warn" ∨ (q.type = "mute" ∧
        (q.endAt = none ∨ ∃ e, q.endAt = some e ∧ e ≤ now1))) → q.id < p.id) :
    (p.durationHours = some 2 → computeNextAction db memberId now1 now2 = Decision.mute 4) ∧
    (p.durationHours = some 4 → computeNextAction db memberId now1 now2 = Decision.mute 6) ∧
    (p.durationHours = some 6 → computeNextAction db memberId now1 now2 = Decision.warn) ∧
    (∀ f : Punishment → String,
      computeNextAction ⟨db.members, db.logs, db.punishments.map (retime f), db.tickets⟩
        memberId now1 now2 = computeNextAction db memberId now1 now2) := by
  have hpc : completedRow memberId now1 p = true := by
    rw [completedRow_iff]
    refine ⟨hpm, Or.inr ⟨hpt, ?_⟩⟩
    cases he : p.endAt with
    | none => exact Or.inl rfl
    | some e => exact Or.inr ⟨e, rfl, not_lt.mp (hno p hp hpm hpt e he)⟩
  have hmax2 : ∀ q ∈ db.punishments, q ≠ p → completedRow memberId now1 q = true →
      q.id < p.id := by
    intro q hq hne hqc
    obtain ⟨hqm, hrest⟩ := (completedRow_iff memberId now1 q).mp hqc
    exact hmax q hq hne hqm hrest
  have hkey := computeNextAction_of_last db memberId now1 now2 p hclock hno hp hpc hmax2
  have hnw : ¬ p.type = "warn" := by rw [hpt]; decide
  refine ⟨?_, ?_, ?_, ?_⟩
  · intro hd
    rw [hkey, hd]
    simp [hnw, hpt]
  · intro hd
    rw [hkey, hd]
    simp [hnw, hpt]
  · intro hd
    rw [hkey, hd]
    simp [hnw, hpt]
  · intro f
    exact computeNextAction_retime db memberId now1 now2 f

/-- Witness of C1: warned then muted until 02:00, asked at 01:00. -/
theorem computeNextAction_activeMute_witness :
    computeNextAction dbWarnMute "M1" "2024-01-01T01:00:00.000Z" "2024-01-01T01:00:00.000Z" =
      Decision.activeMute (some "2024-01-01T02:00:00.000Z") :=
  (computeNextAction_activeMute dbWarnMute "M1" "2024-01-01T01:00:00.000Z"
    "2024-01-01T01:00:00.000Z"
    ⟨muteRow, by decide, rfl, rfl, "2024-01-01T02:00:00.000Z", rfl,
      (sqlLt_iff _ _).mp (by decide)⟩).2
    muteRow (by decide) "2024-01-01T02:00:00.000Z" rfl rfl rfl
    ((sqlLt_iff _ _).mp (by decide))
    (fun q hq hne _ ht _ => by
      simp only [dbWarnMute, List.mem_cons, List.mem_singleton, List.not_mem_nil,
        or_false] at hq
      rcases hq with rfl | rfl
      · exact absurd ht (by decide)
      · exact absurd rfl hne)

/-- Witness of C2: the history `warn`, `mute(2h, endAt = t+2h)` asked at `t+3h` gives
`mute 4`. -/
theorem computeNextAction_ladder_witness :
    computeNextAction dbWarnMute "M1" "2024-01-01T03:00:00.000Z" "2024-01-01T03:00:00.000Z" =
      Decision.mute 4 :=
  (computeNextAction_ladder dbWarnMute "M1" "2024-01-01T03:00:00.000Z"
    "2024-01-01T03:00:00.000Z" muteRow (le_refl _)
    (fun q hq _ _ e he hlt => by
      simp only [dbWarnMute, List.mem_cons, List.mem_singleton, List.not_mem_nil,
        or_false] at hq
      have hs := (sqlLt_iff _ _).mpr hlt
      rcases hq with rfl | rfl
      · exact Option.noConfusion (show (none : Option String) = some e from he)
      · have he2 : e = "2024-01-01T02:00:00.000Z" := (Option.some.inj he).symm
        rw [he2] at hs
        exact absurd hs (by decide))
    (by decide) rfl rfl
    (fun q hq hne _ _ => by
      simp only [dbWarnMute, List.mem_cons, List.mem_singleton, List.not_mem_nil,
        or_false] at hq
      rcases hq with rfl | rfl
      · decide
      · exact absurd rfl hne)).1 rfl

/-- Counterexample to C3 as stated: with no active mute and a last completed action that
is a mute of 3 hours, of 1 hour, or without `durationHours`, the decision is not `warn`
but `mute 6`, `mute 4` and `mute 4`. -/
theorem computeNextAction_out_of_ladder_counterexample :
    (hasActiveMute (dbOpenMute (some 3)) "M1" "2024-01-02T00:00:00.000Z" = none ∧
      getLastCompletedAction (dbOpenMute (some 3)) "M1" "2024-01-02T00:00:00.000Z" =
        some (openMute (some 3)) ∧
      (openMute (some 3)).type = "mute" ∧ (openMute (some 3)).durationHours = some 3 ∧
      computeNextAction (dbOpenMute (some 3)) "M1" "2024-01-02T00:00:00.000Z"
        "2024-01-02T00:00:00.000Z" = Decision.mute 6) ∧
    (hasActiveMute (dbOpenMute (some 1)) "M1" "2024-01-02T00:00:00.000Z" = none ∧
      getLastCompletedAction (dbOpenMute (some 1)) "M1" "2024-01-02T00:00:00.000Z" =
        some (openMute (some 1)) ∧
      computeNextAction (dbOpenMute (some 1)) "M1" "2024-01-02T00:00:00.000Z"
        "2024-01-02T00:00:00.000Z" = Decision.mute 4) ∧
    (hasActiveMute (dbOpenMute none) "M1" "2024-01-02T00:00:00.000Z" = none ∧
      getLastCompletedAction (dbOpenMute none) "M1" "2024-01-02T00:00:00.000Z" =
        some (openMute none) ∧
      computeNextAction (dbOpenMute none) "M1" "2024-01-02T00:00:00.000Z"
        "2024-01-02T00:00:00.000Z" = Decision.mute 4) := by
  decide

/-- C3 as amended (duration thresholds).  When no mute is active and the completed action
of greatest `id` is a mute `p`: a duration above 4 gives `warn`; a duration above 2 and
at most 4 gives `mute 6`; a duration of at most 2, or no duration, gives `mute 4`. -/
theorem computeNextAction_thresholds (db : Db) (memberId now1 now2 : String) (p : Punishment)
    (hclock : now1 ≤ now2)
    (hno : ∀ q ∈ db.punishments, q.memberId = memberId → q.type = "mute" →
      ∀ e, q.endAt = some e → ¬ now1 < e)
    (hp : p ∈ db.punishments) (hpm : p.memberId = memberId) (hpt : p.type = "mute")
    (hmax : ∀ q ∈ db.punishments, q ≠ p → q.memberId = memberId →
      (q.type = "warn" ∨ (q.type = "mute" ∧
        (q.endAt = none ∨ ∃ e, q.endAt = some e ∧ e ≤ now1))) → q.id < p.id) :
    (∀ d : Int, p.durationHours = some d → 4 < d →
      computeNextAction db memberId now1 now2 = Decision.warn) ∧
    (∀ d : Int, p.durationHours = some d → 2 < d → d ≤ 4 →
      computeNextAction db memberId now1 now2 = Decision.mute 6) ∧
    (∀ d : Int, p.durationHours = some d → d ≤ 2 →
      computeNextAction db memberId now1 now2 = Decision.mute 4) ∧
    (p.durationHours = none → computeNextAction db memberId now1 now2 = Decision.mute 4) := by
  have hpc : completedRow memberId now1 p = true := by
    rw [completedRow_iff]
    refine ⟨hpm, Or.inr ⟨hpt, ?_⟩⟩
    cases he : p.endAt with
    | none => exact Or.inl rfl
    | some e => exact Or.inr ⟨e, rfl, not_lt.mp (hno p hp hpm hpt e he)⟩
  have hmax2 : ∀ q ∈ db.punishments, q ≠ p → completedRow memberId now1 q = true →
      q.id < p.id := by
    intro q hq hne hqc
    obtain ⟨hqm, hrest⟩ := (completedRow_iff memberId now1 q).mp hqc
    exact hmax q hq hne hqm hrest
  have hkey := computeNextAction_of_last db memberId now1 now2 p hclock hno hp hpc hmax2
  have hnw : ¬ p.type = "warn" := by rw [hpt]; decide
  refine ⟨?_, ?_, ?_, ?_⟩
  · intro d hd h4
    rw [hkey, hd]
    have h2 : ¬ d ≤ 2 := by omega
    have h4' : ¬ d ≤ 4 := by omega
    simp [hnw, hpt, h2, h4']
  · intro d hd h2 h4
    rw [hkey, hd]
    have h2' : ¬ d ≤ 2 := by omega
    simp [hnw, hpt, h2', h4]
  · intro d hd h2
    rw [hkey, hd]
    simp [hnw, hpt, h2]
  · intro hd
    rw [hkey, hd]
    simp [hnw, hpt]

/-- Witness of the amended C3: a completed 8-hour mute resets the ladder. -/
theorem computeNextAction_thresholds_witness :
    computeNextAction (dbOpenMute (some 8)) "M1" "2024-01-02T00:00:00.000Z"
      "2024-01-02T00:00:00.000Z" = Decision.warn :=
  (computeNextAction_thresholds (dbOpenMute (some 8)) "M1" "2024-01-02T00:00:00.000Z"
    "2024-01-02T00:00:00.000Z" (openMute (some 8)) (le_refl _)
    (fun q hq _ _ e he _ => by
      simp only [dbOpenMute, List.mem_singleton] at hq
      subst hq
      exact Option.noConfusion (show (none : Option String) = some e from he))
    (by decide) rfl rfl
    (fun q hq hne _ _ => by
      simp only [dbOpenMute, List.mem_singleton] at hq
      exact absurd hq hne)).1 8 rfl (by decide)

/-- C4 (first escalation).  When no mute is active and the completed action of greatest
`id` is a warn, the decision is `mute 2`. -/
theorem computeNextAction_after_warn (db : Db) (memberId now1 now2 : String) (p : Punishment)
    (hclock : now1 ≤ now2)
    (hno : ∀ q ∈ db.punishments, q.memberId = memberId → q.type = "mute" →
      ∀ e, q.endAt = some e → ¬ now1 < e)
    (hp : p ∈ db.punishments) (hpm : p.memberId = memberId) (hpt : p.type = "warn")
    (hmax : ∀ q ∈ db.punishments, q ≠ p → q.memberId = memberId →
      (q.type = "warn" ∨ (q.type = "mute" ∧
        (q.endAt = none ∨ ∃ e, q.endAt = some e ∧ e ≤ now1))) → q.id < p.id) :
    computeNextAction db memberId now1 now2 = Decision.mute 2 := by
  have hpc : completedRow memberId now1 p = true := by
    rw [completedRow_iff]
    exact ⟨hpm, Or.inl hpt⟩
  have hmax2 : ∀ q ∈ db.punishments, q ≠ p → completedRow memberId now1 q = true →
      q.id < p.id := by
    intro q hq hne hqc
    obtain ⟨hqm, hrest⟩ := (completedRow_iff memberId now1 q).mp hqc
    exact hmax q hq hne hqm hrest
  rw [computeNextAction_of_last db memberId now1 now2 p hclock hno hp hpc hmax2]
  simp [hpt]

/-- Witness of C4: a warn followed by a ban gives `mute 2`. -/
theorem computeNextAction_after_warn_witness :
    computeNextAction ⟨[], [], [warnRow, banRow], []⟩ "M1" "2024-01-01T01:00:00.000Z"
      "2024-01-01T01:00:00.000Z" = Decision.mute 2 :=
  computeNextAction_after_warn ⟨[], [], [warnRow, banRow], []⟩ "M1"
    "2024-01-01T01:00:00.000Z" "2024-01-01T01:00:00.000Z" warnRow (le_refl _)
    (fun q hq _ ht _ _ _ => by
      simp only [List.mem_cons, List.mem_singleton, List.not_mem_nil, or_false] at hq
      rcases hq with rfl | rfl
      · exact absurd ht (by decide)
      · exact absurd ht (by decide))
    (by decide) rfl rfl
    (fun q hq hne _ hc => by
      simp only [List.mem_cons, List.mem_singleton, List.not_mem_nil, or_false] at hq
      rcases hq with rfl | rfl
      · exact absurd rfl hne
      · rcases hc with h | ⟨h, _⟩
        · exact absurd h (by decide)
        · exact absurd h (by decide))

/-- C5 (ladder start and totality).  `computeNextAction` always answers one of
`activeMute` with a non-null `until`, `warn`, `mute 2`, `mute 4`, `mute 6`; and when no
punishment row carries the member id, also an id unknown to `members`, it answers
`warn`. -/
theorem computeNextAction_total (db : Db) (memberId now1 now2 : String) :
    ((∃ e, computeNextAction db memberId now1 now2 = Decision.activeMute (some e)) ∨
      computeNextAction db memberId now1 now2 = Decision.warn ∨
      computeNextAction db memberId now1 now2 = Decision.mute 2 ∨
      computeNextAction db memberId now1 now2 = Decision.mute 4 ∨
      computeNextAction db memberId now1 now2 = Decision.mute 6) ∧
    ((∀ p ∈ db.punishments, p.memberId ≠ memberId) →
      computeNextAction db memberId now1 now2 = Decision.warn) := by
  constructor
  · unfold computeNextAction
    cases ha : hasActiveMute db memberId now1 with
    | some a =>
      have hamem := List.mem_filter.mp (maxById_mem ha)
      obtain ⟨_, _, e, he, _⟩ := (activeMuteRow_iff memberId now1 a).mp hamem.2
      exact Or.inl ⟨e, by simp only [he]⟩
    | none =>
      right
      cases getLastCompletedAction db memberId now2 with
      | none => exact Or.inl rfl
      | some last =>
        simp only []
        split_ifs <;> simp
  · intro hnone
    have h1 : db.punishments.filter (activeMuteRow memberId now1) = [] := by
      rw [List.filter_eq_nil_iff]
      intro q hq hact
      exact hnone q hq ((activeMuteRow_iff memberId now1 q).mp hact).1
    have h2 : db.punishments.filter (completedRow memberId now2) = [] := by
      rw [List.filter_eq_nil_iff]
      intro q hq hc
      exact hnone q hq ((completedRow_iff memberId now2 q).mp hc).1
    unfold computeNextAction hasActiveMute getLastCompletedAction
    rw [h1, h2]
    rfl

/-- Witness of C5: member `M9` has no row at all. -/
theorem computeNextAction_total_witness :
    computeNextAction dbWarnMute "M9" "2024-01-01T01:00:00.000Z" "2024-01-01T01:00:00.000Z" =
      Decision.warn :=
  (computeNextAction_total dbWarnMute "M9" "2024-01-01T01:00:00.000Z"
    "2024-01-01T01:00:00.000Z").2 (by decide)

/-- C6 (bans do not feed the ladder).  A row of type `ban`, whatever its `id`, member and
other columns, put at any place among the punishments leaves the decision unchanged;
read from right to left, so does deleting it. -/
theorem computeNextAction_ban (members : List Member) (logs : List LogRow)
    (tickets : List Ticket) (before after : List Punishment) (ban : Punishment)
    (memberId now1 now2 : String) (hban : ban.type = "ban") :
    computeNextAction ⟨members, logs, before ++ ban :: after, tickets⟩ memberId now1 now2 =
      computeNextAction ⟨members, logs, before ++ after, tickets⟩ memberId now1 now2 := by
  have ha : activeMuteRow memberId now1 ban = false := by
    rw [← Bool.not_eq_true, activeMuteRow_iff]
    rintro ⟨_, ht, _⟩
    rw [hban] at ht
    exact absurd ht (by decide)
  have hc : completedRow memberId now2 ban = false := by
    rw [← Bool.not_eq_true, completedRow_iff]
    rintro ⟨_, ht | ⟨ht, _⟩⟩
    · rw [hban] at ht
      exact absurd ht (by decide)
    · rw [hban] at ht
      exact absurd ht (by decide)
  unfold computeNextAction hasActiveMute getLastCompletedAction
  simp only [List.filter_append, List.filter_cons, ha, hc, Bool.false_eq_true, if_false]

/-- Witness of C6: a ban recorded during the mute keeps the mute active, a ban recorded
between the warn and the expired mute keeps `mute 4`. -/
theorem computeNextAction_ban_witness :
    computeNextAction ⟨[], [], [warnRow, muteRow, banRow], []⟩ "M1"
      "2024-01-01T01:00:00.000Z" "2024-01-01T01:00:00.000Z" =
      Decision.activeMute (some "2024-01-01T02:00:00.000Z") ∧
    computeNextAction ⟨[], [], [warnRow, banRow, muteRow], []⟩ "M1"
      "2024-01-01T03:00:00.000Z" "2024-01-01T03:00:00.000Z" = Decision.mute 4 :=
  ⟨(computeNextAction_ban [] [] [] [warnRow, muteRow] [] banRow "M1"
      "2024-01-01T01:00:00.000Z" "2024-01-01T01:00:00.000Z" rfl).trans (by decide),
    (computeNextAction_ban [] [] [] [warnRow] [muteRow] banRow "M1"
      "2024-01-01T03:00:00.000Z" "2024-01-01T03:00:00.000Z" rfl).trans (by decide)⟩

/-- C10 (two clock reads collapse to one).  With the clock read of `hasActiveMute` not
after the one of `getLastCompletedAction`, the decision is the one computed with both
reads equal to the first; and at any instant a mute of the member satisfies exactly one
of the two `WHERE` clauses: it is active (`endAt` non-null and after the instant) or
completed (`endAt` null or not after the instant). -/
theorem computeNextAction_one_clock (db : Db) (memberId now1 now2 : String)
    (hclock : now1 ≤ now2) :
    computeNextAction db memberId now1 now2 = computeNextAction db memberId now1 now1 ∧
    (∀ (p : Punishment) (now : String), p.memberId = memberId → p.type = "mute" →
      activeMuteRow memberId now p = !(completedRow memberId now p)) ∧
    (∀ (p : Punishment) (now : String),
      ((∃ e, p.endAt = some e ∧ now < e) ↔
        ¬ (p.endAt = none ∨ ∃ e, p.endAt = some e ∧ e ≤ now))) := by
  refine ⟨computeNextAction_later db memberId now1 now2 hclock, ?_, ?_⟩
  · intro p now hm ht
    unfold activeMuteRow completedRow
    cases he : p.endAt with
    | none => simp [hm, ht]
    | some e =>
      have hx : sqlGt e now = !(sqlLe e now) := by
        cases hle : sqlLe e now with
        | true =>
          cases hgt : sqlGt e now with
          | true => rw [(sqlGt_iff_not_sqlLe e now).mp hgt] at hle; cases hle
          | false => rfl
        | false => exact (sqlGt_iff_not_sqlLe e now).mpr hle
      simp [hm, ht, hx]
  · intro p now
    cases he : p.endAt with
    | none => simp
    | some e => simp [not_le]

/-- Witness of C10: the mute ends between the two clock reads. -/
theorem computeNextAction_one_clock_witness :
    computeNextAction dbWarnMute "M1" "2024-01-01T01:59:59.999Z" "2024-01-01T02:00:00.001Z" =
      computeNextAction dbWarnMute "M1" "2024-01-01T01:59:59.999Z"
        "2024-01-01T01:59:59.999Z" :=
  (computeNextAction_one_clock dbWarnMute "M1" "2024-01-01T01:59:59.999Z"
    "2024-01-01T02:00:00.001Z" ((sqlLe_iff _ _).mp (by decide))).1

/-! ## Member list -/

theorem sqlSumFrom_of_nonneg (vs : List Int) (acc : Int) (hacc : 0 ≤ acc)
    (hvs : ∀ v ∈ vs, 0 ≤ v) (hsum : acc + vs.sum ≤ int64Max) :
    sqlSumFrom acc vs = some (acc + vs.sum) := by
  induction vs generalizing acc with
  | nil => simp [sqlSumFrom]
  | cons v vs ih =>
    have hv : 0 ≤ v := hvs v (List.mem_cons_self v vs)
    have hrest : ∀ w ∈ vs, 0 ≤ w := fun w hw => hvs w (List.mem_cons_of_mem v hw)
    have hpos : 0 ≤ vs.sum := List.sum_nonneg hrest
    rw [List.sum_cons] at hsum
    have hlo : int64Min ≤ acc + v := by unfold int64Min; omega
    have hhi : acc + v ≤ int64Max := by omega
    simp only [sqlSumFrom, hlo, hhi, and_self, if_true]
    rw [ih (acc + v) (by omega) hrest (by omega), List.sum_cons]
    congr 1
    omega

theorem sumGroups_isSome (db : Db) (ks : List String)
    (h : ∀ k ∈ ks, ∃ total, sqlSum (agentCounts db k) = some total) :
    ∃ rows, sumGroups db ks = some rows := by
  induction ks with
  | nil => exact ⟨[], rfl⟩
  | cons k ks ih =>
    obtain ⟨total, ht⟩ := h k (List.mem_cons_self k ks)
    obtain ⟨rest, hr⟩ := ih (fun j hj => h j (List.mem_cons_of_mem k hj))
    exact ⟨(k, toDouble total) :: rest, by simp only [sumGroups, ht, hr]⟩

/-- With counts that are not negative and totals within the 64-bit range, the tickets
query raises no error. -/
theorem ticketsAgg_of_bounded (db : Db) (hcount : ∀ t ∈ db.tickets, 0 ≤ t.count)
    (htotal : ∀ agentId : String, (agentCounts db agentId).sum ≤ int64Max) :
    ∃ rows, ticketsAgg db = some rows := by
  unfold ticketsAgg
  apply sumGroups_isSome
  intro k _
  refine ⟨0 + (agentCounts db k).sum, ?_⟩
  unfold sqlSum
  apply sqlSumFrom_of_nonneg _ 0 (le_refl 0)
  · intro v hv
    unfold agentCounts at hv
    obtain ⟨t, ht, rfl⟩ := List.mem_map.mp hv
    exact hcount t (List.mem_filter.mp ht).1
  · have := htotal k
    omega

/-- When the tickets query raises `integer overflow`, the handler lists nothing, whatever
the scope. -/
theorem apiMembers_of_overflow (db : Db) (guild : Option String) (h : ticketsAgg db = none) :
    apiMembers db guild = Except.error Failure.integerOverflow := by
  unfold apiMembers
  simp only [h]

/-- C8, evaluated on the store `dbOverflow`: member `A` of guild `G1`, and two batches of
`2 ^ 62` tickets of agent `X`.  The sum of the two counts leaves the 64-bit range, the
tickets query raises `integer overflow`, and `GET /api/members` answers no list at all,
with scope `G1`, with any other scope and with none. -/
theorem apiMembers_integer_overflow :
    (∃ m ∈ dbOverflow.members, m.id = "A" ∧ m.guildId = some "G1") ∧
    agentCounts dbOverflow "X" = [4611686018427387904, 4611686018427387904] ∧
    sqlSum (agentCounts dbOverflow "X") = none ∧
    ticketsAgg dbOverflow = none ∧
    (∀ guild : Option String,
      apiMembers dbOverflow guild = Except.error Failure.integerOverflow) :=
  ⟨⟨⟨"A", some "G1", "alice", "2024-01-01T00:00:00.000Z"⟩, by decide, rfl, rfl⟩,
    by decide, by decide, by decide,
    fun guild => apiMembers_of_overflow dbOverflow guild (by decide)⟩

/-- The guild-scope filter on a store whose ticket counts are not negative and whose
totals per agent stay within the 64-bit range: with a non-empty scope `g` the answer of
`GET /api/members` is one entry per member row whose `guildId` is `g` or null, in table
order, and nothing else; with no scope, or an empty one, it is one entry per member
row. -/
theorem apiMembers_scope (db : Db) (g : String) (hg : g ≠ "")
    (hcount : ∀ t ∈ db.tickets, 0 ≤ t.count)
    (htotal : ∀ agentId : String, (agentCounts db agentId).sum ≤ int64Max) :
    ∃ tickets, ticketsAgg db = some tickets ∧
      apiMembers db (some g) = Except.ok
        ((db.members.filter (fun m => decide (m.guildId = some g ∨ m.guildId = none))).map
          (memberEntry (countRows db "warn") (countRows db "mute") (countRows db "ban")
            (lastRows db) tickets)) ∧
      (∀ m ∈ db.members, ∀ g', m.guildId = some g' → g' ≠ g →
        m ∉ db.members.filter (fun m => decide (m.guildId = some g ∨ m.guildId = none))) ∧
      ((db.members.filter (fun m => decide (m.guildId = some g ∨ m.guildId = none))).map
          (memberEntry (countRows db "warn") (countRows db "mute") (countRows db "ban")
            (lastRows db) tickets)).map (fun e => e.user_id) =
        (db.members.filter (fun m => decide (m.guildId = some g ∨ m.guildId = none))).map
          (fun m => m.id) ∧
      apiMembers db none = Except.ok (db.members.map
        (memberEntry (countRows db "warn") (countRows db "mute") (countRows db "ban")
          (lastRows db) tickets)) ∧
      apiMembers db (some "") = Except.ok (db.members.map
        (memberEntry (countRows db "warn") (countRows db "mute") (countRows db "ban")
          (lastRows db) tickets)) := by
  obtain ⟨tickets, ht⟩ := ticketsAgg_of_bounded db hcount htotal
  have hfilter : db.members.filter (inGuild g) =
      db.members.filter (fun m => decide (m.guildId = some g ∨ m.guildId = none)) := by
    apply List.filter_congr
    intro m _
    unfold inGuild
    cases m.guildId with
    | none => simp
    | some x => by_cases h : x = g <;> simp [h]
  refine ⟨tickets, ht, ?_, ?_, ?_, ?_, ?_⟩
  · unfold apiMembers
    simp only [hg, if_false, ht, hfilter]
  · intro m _ g' hm hne hmem
    have := (List.mem_filter.mp hmem).2
    simp [hm, hne] at this
  · rw [List.map_map]
    rfl
  · unfold apiMembers
    simp only [ht]
  · unfold apiMembers
    simp only [if_true, ht]

/-- The answer for scope `G1` on the store `dbRollup`: `A` has one warn; the member
`constructor`, which is in no guild and has no row in any table, gets the inherited
property of that name in every looked-up field; the tickets of `B`, `2 ^ 53 + 1` in the
database, arrive as the double `2 ^ 53`. -/
theorem apiMembers_rollup :
    apiMembers dbRollup (some "G1") = Except.ok
      [⟨"A", "alice", Looked.value 1, Looked.value 0, Looked.value 0,
          Looked.value (some ⟨"A", "warn", "2024-01-01T00:00:00.000Z"⟩), Looked.value 0⟩,
        ⟨"constructor", "constructor", Looked.inherited "constructor",
          Looked.inherited "constructor", Looked.inherited "constructor",
          Looked.inherited "constructor", Looked.inherited "constructor"⟩,
        ⟨"B", "bob", Looked.value 0, Looked.value 0, Looked.value 0, Looked.value none,
          Looked.value 9007199254740992⟩] := by
  rfl
/-! ## Clearing one member -/

/-- C9 (frame of `clearMember`).  With a non-empty member id the call leaves no log and
no punishment of that member, keeps every other log and punishment (each table is the
old one without that member's rows), keeps `members` and `tickets`, and answers the
numbers of that member's logs and punishments before the call; with a missing or empty
id it answers 400 and the database is unchanged. -/
theorem apiClearMember_frame (db : Db) (memberId : String) (hid : memberId ≠ "") :
    (∀ r ∈ (apiClearMember db (some memberId)).1.logs, r.memberId ≠ memberId) ∧
    (∀ p ∈ (apiClearMember db (some memberId)).1.punishments, p.memberId ≠ memberId) ∧
    (apiClearMember db (some memberId)).1.logs =
      db.logs.filter (fun r => decide (r.memberId ≠ memberId)) ∧
    (apiClearMember db (some memberId)).1.punishments =
      db.punishments.filter (fun p => decide (p.memberId ≠ memberId)) ∧
    (∀ other : String, other ≠ memberId →
      (apiClearMember db (some memberId)).1.logs.filter (fun r => decide (r.memberId = other)) =
        db.logs.filter (fun r => decide (r.memberId = other)) ∧
      (apiClearMember db (some memberId)).1.punishments.filter
          (fun p => decide (p.memberId = other)) =
        db.punishments.filter (fun p => decide (p.memberId = other))) ∧
    (apiClearMember db (some memberId)).1.members = db.members ∧
    (apiClearMember db (some memberId)).1.tickets = db.tickets ∧
    (apiClearMember db (some memberId)).2 =
      Except.ok ⟨(db.logs.filter (fun r => decide (r.memberId = memberId))).length,
        (db.punishments.filter (fun p => decide (p.memberId = memberId))).length⟩ ∧
    apiClearMember db none = (db, Except.error (Failure.badRequest "memberId required")) ∧
    apiClearMember db (some "") =
      (db, Except.error (Failure.badRequest "memberId required")) := by
  have hlogs : (apiClearMember db (some memberId)).1.logs =
      db.logs.filter (fun r => decide (r.memberId ≠ memberId)) := by
    simp only [apiClearMember, hid, if_false]
    apply List.filter_congr
    intro r _
    by_cases h : r.memberId = memberId <;> simp [h]
  have hpun : (apiClearMember db (some memberId)).1.punishments =
      db.punishments.filter (fun p => decide (p.memberId ≠ memberId)) := by
    simp only [apiClearMember, hid, if_false]
    apply List.filter_congr
    intro r _
    by_cases h : r.memberId = memberId <;> simp [h]
  refine ⟨?_, ?_, hlogs, hpun, ?_, ?_, ?_, ?_, rfl, rfl⟩
  · intro r hr
    rw [hlogs] at hr
    simpa using (List.mem_filter.mp hr).2
  · intro p hp
    rw [hpun] at hp
    simpa using (List.mem_filter.mp hp).2
  · intro other hne
    rw [hlogs, hpun, List.filter_filter, List.filter_filter]
    constructor
    · apply List.filter_congr
      intro r _
      by_cases h : r.memberId = other
      · simp [h, hne]
      · simp [h]
    · apply List.filter_congr
      intro r _
      by_cases h : r.memberId = other
      · simp [h, hne]
      · simp [h]
  · simp only [apiClearMember, hid, if_false]
  · simp only [apiClearMember, hid, if_false]
  · have h1 : db.logs.filter (fun r => r.memberId == memberId) =
        db.logs.filter (fun r => decide (r.memberId = memberId)) :=
      List.filter_congr (fun r _ => by by_cases h : r.memberId = memberId <;> simp [h])
    have h2 : db.punishments.filter (fun p => p.memberId == memberId) =
        db.punishments.filter (fun p => decide (p.memberId = memberId)) :=
      List.filter_congr (fun r _ => by by_cases h : r.memberId = memberId <;> simp [h])
    simp only [apiClearMember, hid, if_false, h1, h2]

/-- Witness of C9: clearing `M1` deletes two logs and one punishment, keeps the rows of
`M2`, the member row of `M1` and the ticket batch. -/
theorem apiClearMember_frame_witness :
    (apiClearMember dbTwoMembers (some "M1")).1 =
      ⟨dbTwoMembers.members, [mkLog 2 "M2" "2024-02-10T08:00:00.000Z"],
        [mkPunishment 2 "M2" "ban" "2024-03-30T12:00:00.000Z" none none],
        dbTwoMembers.tickets⟩ ∧
    (apiClearMember dbTwoMembers (some "M1")).2 = Except.ok ⟨2, 1⟩ :=
  ⟨by
    have h := apiClearMember_frame dbTwoMembers "M1" (by decide)
    have h3 := h.2.2.1
    have h4 := h.2.2.2.1
    have h6 := h.2.2.2.2.2.1
    have h7 := h.2.2.2.2.2.2.1
    cases hdb : (apiClearMember dbTwoMembers (some "M1")).1 with
    | mk ms ls ps ts =>
      rw [hdb] at h3 h4 h6 h7
      simp only at h3 h4 h6 h7
      rw [h3, h4, h6, h7]
      decide,
    (apiClearMember_frame dbTwoMembers "M1" (by decide)).2.2.2.2.2.2.2.1.trans (by rfl)⟩

/-! ## Monthly history -/

theorem inWindow_iff (start stop t : String) :
    inWindow start stop t = true ↔ start ≤ t ∧ t < stop := by
  simp [inWindow, sqlGe, sqlLe_iff, sqlLt_iff]

/-- In a process at or east of UTC, adding a month to the first instant of a month gives
the first instant of the next month. -/
theorem dayjsAddMonth_east (tz : Int) (y : Int) (m : Nat) (h0 : 0 ≤ tz) (h1 : tz < 1440) :
    dayjsAddMonth tz ⟨y, m, 1, 0⟩ = firstOfNextMonth y m := by
  have hdim : ∀ (yy : Int) (mm : Nat), min 1 (daysInMonth yy mm) = 1 := by
    intro yy mm
    unfold daysInMonth
    split_ifs <;> rfl
  have hshift : shiftMinutes tz ⟨y, m, 1, 0⟩ = ⟨y, m, 1, tz.toNat⟩ := by
    unfold shiftMinutes
    have ha : ¬ ((0 : Nat) : Int) + tz < 0 := by omega
    have hb : ¬ (1440 : Int) ≤ ((0 : Nat) : Int) + tz := by omega
    simp only [ha, hb, if_false]
    simp
  have hback : ∀ (yy : Int) (mm : Nat),
      shiftMinutes (-tz) ⟨yy, mm, 1, tz.toNat⟩ = ⟨yy, mm, 1, 0⟩ := by
    intro yy mm
    unfold shiftMinutes
    have hz : ((tz.toNat : Nat) : Int) + -tz = 0 := by
      rw [Int.toNat_of_nonneg h0]; omega
    simp only [hz]
    simp
  unfold dayjsAddMonth firstOfNextMonth
  rw [hshift]
  simp only [hdim]
  by_cases hm : m = 12
  · simp only [hm, if_true]
    exact hback (y + 1) 1
  · simp only [hm, if_false]
    exact hback y (m + 1)

theorem digitChar_digitVal (c : Char) (k : Nat) (hc : isDigit c = true)
    (hk : k % 10 = digitVal c) : digitChar k = c := by
  unfold isDigit at hc
  unfold digitVal at hk
  unfold digitChar
  simp only [Bool.and_eq_true, decide_eq_true_eq] at hc
  have : 48 + k % 10 = c.toNat := by omega
  rw [this]
  exact Char.ofNat_toNat c

/-- For a period that passed the format test and names a real month, the lower bound of
the window is the period followed by `-01T00:00:00.000Z`. -/
theorem toISOString_parseStart (month : String) (start : Civil)
    (hfmt : monthFormat month = true) (hstart : parseStart month = some start) :
    toISOString start = month ++ "-01T00:00:00.000Z" := by
  unfold monthFormat at hfmt
  unfold parseStart at hstart
  split at hfmt
  · rename_i y1 y2 y3 y4 dash m1 m2 hl
    rw [hl] at hstart
    simp only [Bool.and_eq_true, beq_iff_eq] at hfmt
    obtain ⟨⟨⟨⟨⟨⟨h1, h2⟩, h3⟩, h4⟩, hdash⟩, h5⟩, h6⟩ := hfmt
    simp only at hstart
    split_ifs at hstart with hm
    simp only [Option.some.injEq] at hstart
    subst hstart
    have b1 : digitVal y1 < 10 := by
      unfold isDigit at h1; unfold digitVal
      simp only [Bool.and_eq_true, decide_eq_true_eq] at h1; omega
    have b2 : digitVal y2 < 10 := by
      unfold isDigit at h2; unfold digitVal
      simp only [Bool.and_eq_true, decide_eq_true_eq] at h2; omega
    have b3 : digitVal y3 < 10 := by
      unfold isDigit at h3; unfold digitVal
      simp only [Bool.and_eq_true, decide_eq_true_eq] at h3; omega
    have b4 : digitVal y4 < 10 := by
      unfold isDigit at h4; unfold digitVal
      simp only [Bool.and_eq_true, decide_eq_true_eq] at h4; omega
    have b5 : digitVal m1 < 10 := by
      unfold isDigit at h5; unfold digitVal
      simp only [Bool.and_eq_true, decide_eq_true_eq] at h5; omega
    have b6 : digitVal m2 < 10 := by
      unfold isDigit at h6; unfold digitVal
      simp only [Bool.and_eq_true, decide_eq_true_eq] at h6; omega
    have hy : isoYear ((digitVal y1 * 1000 + digitVal y2 * 100 + digitVal y3 * 10 +
        digitVal y4 : Nat) : Int) = [y1, y2, y3, y4] := by
      unfold isoYear
      have hr : (0 : Int) ≤ ((digitVal y1 * 1000 + digitVal y2 * 100 + digitVal y3 * 10 +
          digitVal y4 : Nat) : Int) ∧ ((digitVal y1 * 1000 + digitVal y2 * 100 +
          digitVal y3 * 10 + digitVal y4 : Nat) : Int) ≤ 9999 := by omega
      rw [if_pos hr, Int.toNat_ofNat]
      unfold pad4
      rw [digitChar_digitVal y1 _ h1 (by omega), digitChar_digitVal y2 _ h2 (by omega),
        digitChar_digitVal y3 _ h3 (by omega), digitChar_digitVal y4 _ h4 (by omega)]
    have hmm : pad2 (digitVal m1 * 10 + digitVal m2) = [m1, m2] := by
      unfold pad2
      rw [digitChar_digitVal m1 _ h5 (by omega), digitChar_digitVal m2 _ h6 (by omega)]
    have hmonth : month = String.mk [y1, y2, y3, y4, dash, m1, m2] := by
      rw [← hl]
      rfl
    unfold toISOString
    simp only [hy, hmm]
    rw [hmonth, hdash]
    rfl
  · cases hfmt

/-- The window computed by `GET /api/history/:month` for a real calendar month, in a
process at or east of UTC: the answer is exactly the rows whose `timestamp` text `t`
satisfies `start ≤ t < stop`, with `start` the period followed by `-01T00:00:00.000Z`
and `stop` the ISO text of the first instant of the next month in UTC. -/
theorem apiHistoryMonth_window (tz : Int) (db : Db) (month : String) (start : Civil)
    (h0 : 0 ≤ tz) (h1 : tz < 1440) (hfmt : monthFormat month = true)
    (hstart : parseStart month = some start) :
    start.day = 1 ∧ start.minute = 0 ∧ 1 ≤ start.month ∧ start.month ≤ 12 ∧
    toISOString start = month ++ "-01T00:00:00.000Z" ∧
    apiHistoryMonth tz db month = Except.ok
      { month := month
        logs := db.logs.filter (fun r =>
          decide (toISOString start ≤ r.timestamp ∧
            r.timestamp < toISOString (firstOfNextMonth start.year start.month)))
        punishments := db.punishments.filter (fun r =>
          decide (toISOString start ≤ r.timestamp ∧
            r.timestamp < toISOString (firstOfNextMonth start.year start.month)))
        tickets := db.tickets.filter (fun r =>
          decide (toISOString start ≤ r.timestamp ∧
            r.timestamp < toISOString (firstOfNextMonth start.year start.month))) } := by
  have hshape : start.day = 1 ∧ start.minute = 0 ∧ 1 ≤ start.month ∧ start.month ≤ 12 := by
    unfold parseStart at hstart
    split at hstart
    · simp only at hstart
      split_ifs at hstart with hm
      simp only [Option.some.injEq] at hstart
      subst hstart
      exact ⟨rfl, rfl, hm.1, hm.2⟩
    · cases hstart
  obtain ⟨hd, hmin, hlo, hhi⟩ := hshape
  refine ⟨hd, hmin, hlo, hhi, toISOString_parseStart month start hfmt hstart, ?_⟩
  have hst : start = ⟨start.year, start.month, 1, 0⟩ := by
    cases start
    simp only at hd hmin
    subst hd hmin
    rfl
  have hadd : dayjsAddMonth tz start = firstOfNextMonth start.year start.month := by
    conv_lhs => rw [hst]
    exact dayjsAddMonth_east tz start.year start.month h0 h1
  have hw : ∀ t : String,
      inWindow (toISOString start) (toISOString (dayjsAddMonth tz start)) t =
        decide (toISOString start ≤ t ∧
          t < toISOString (firstOfNextMonth start.year start.month)) := by
    intro t
    rw [hadd]
    by_cases h : toISOString start ≤ t ∧
        t < toISOString (firstOfNextMonth start.year start.month)
    · simp only [h, and_self, decide_True]
      exact (inWindow_iff _ _ _).mpr h
    · rw [decide_eq_false h]
      rw [← Bool.not_eq_true, inWindow_iff]
      exact h
  unfold apiHistoryMonth
  simp only [hfmt, if_true, hstart, hw]

/-- C7, evaluated at the period `2024-13`: the format test accepts it, the date built from
it is invalid, and the handler throws instead of answering a slice or a 400, whatever
the database and the time zone. -/
theorem apiHistoryMonth_month_13 (tz : Int) (db : Db) :
    monthFormat "2024-13" = true ∧ parseStart "2024-13" = none ∧
    apiHistoryMonth tz db "2024-13" = Except.error Failure.rangeError :=
  ⟨by decide, by decide, rfl⟩

/-- The period `2024-02` in a process on UTC: the window is
`[2024-02-01T00:00:00.000Z, 2024-03-01T00:00:00.000Z)`; a log stamped at the lower bound
is answered, a log stamped at the upper bound is not. -/
theorem apiHistoryMonth_2024_02 :
    (parseStart "2024-02").map toISOString = some "2024-02-01T00:00:00.000Z" ∧
    (parseStart "2024-02").map (fun s => toISOString (dayjsAddMonth 0 s)) =
      some "2024-03-01T00:00:00.000Z" ∧
    apiHistoryMonth 0 dbTwoMembers "2024-02" = Except.ok
      ⟨"2024-02", [mkLog 1 "M1" "2024-02-01T00:00:00.000Z",
          mkLog 2 "M2" "2024-02-10T08:00:00.000Z"], [],
        [⟨1, "M1", "one", 3, "2024-02-29T23:59:59.999Z"⟩]⟩ := by
  refine ⟨by decide, by decide, by rfl⟩

/-- The period `2024-03` in a process three hours west of UTC: the local date of the
start is 29 February 21:00, `add(1, 'month')` gives 29 March 21:00, so the window stops
at `2024-03-30T00:00:00.000Z` and a punishment stamped 30 March 12:00 is not answered. -/
theorem apiHistoryMonth_west_of_utc :
    (parseStart "2024-03").map (fun s => toISOString (dayjsAddMonth (-180) s)) =
      some "2024-03-30T00:00:00.000Z" ∧
    apiHistoryMonth (-180) dbTwoMembers "2024-03" = Except.ok
      ⟨"2024-03", [mkLog 3 "M1" "2024-03-01T00:00:00.000Z"], [], []⟩ ∧
    apiHistoryMonth 0 dbTwoMembers "2024-03" = Except.ok
      ⟨"2024-03", [mkLog 3 "M1" "2024-03-01T00:00:00.000Z"],
        [mkPunishment 2 "M2" "ban" "2024-03-30T12:00:00.000Z" none none], []⟩ := by
  refine ⟨by decide, by rfl, by rfl⟩

/-- The period `9999-12` in a process on UTC: the next month is in year 10000, whose ISO
text starts with `+010000` and sorts before every four-digit year, so the window is
empty as text and a log stamped inside December 9999 is not answered. -/
theorem apiHistoryMonth_9999_12 :
    (parseStart "9999-12").map (fun s => toISOString (dayjsAddMonth 0 s)) =
      some "+010000-01-01T00:00:00.000Z" ∧
    apiHistoryMonth 0 ⟨[], [mkLog 1 "M1" "9999-12-15T00:00:00.000Z"], [], []⟩ "9999-12" =
      Except.ok ⟨"9999-12", [], [], []⟩ := by
  refine ⟨by decide, by rfl⟩

/-- The period `9999-12` in any time zone: the window never holds a log stamped at noon
of 31 December 9999.  At or east of UTC it stops at the text `+010000-01-01T00:00:00.000Z`,
west of UTC at `9999-12-31T00:00:00.000Z`. -/
theorem apiHistoryMonth_9999_12_any_zone (tz : Int) (h0 : -1440 < tz) (h1 : tz < 1440) :
    apiHistoryMonth tz ⟨[], [mkLog 1 "M1" "9999-12-31T12:00:00.000Z"], [], []⟩ "9999-12" =
      Except.ok ⟨"9999-12", [], [], []⟩ := by
  have hp : parseStart "9999-12" = some ⟨9999, 12, 1, 0⟩ := by decide
  have hf : monthFormat "9999-12" = true := by decide
  by_cases hz : 0 ≤ tz
  · have hadd := dayjsAddMonth_east tz 9999 12 hz h1
    unfold apiHistoryMonth
    simp only [hf, if_true, hp, hadd]
    rfl
  · have hadd : dayjsAddMonth tz ⟨9999, 12, 1, 0⟩ = ⟨9999, 12, 31, 0⟩ := by
      have hs : shiftMinutes tz ⟨9999, 12, 1, 0⟩ = ⟨9999, 11, 30, (tz + 1440).toNat⟩ := by
        unfold shiftMinutes
        have ha : ((0 : Nat) : Int) + tz < 0 := by omega
        simp only [ha, if_true]
        simp [dayBefore, daysInMonth]
      unfold dayjsAddMonth
      rw [hs]
      have hd : min 30 (daysInMonth 9999 12) = 30 := by decide
      simp only [show ¬ (11 : Nat) = 12 by decide, if_false, hd]
      unfold shiftMinutes
      have hb : (((tz + 1440).toNat : Nat) : Int) + -tz = 1440 := by
        rw [Int.toNat_of_nonneg (by omega)]; omega
      simp only [hb]
      simp [dayAfter, daysInMonth, isLeapYear]
    unfold apiHistoryMonth
    simp only [hf, if_true, hp, hadd]
    rfl

end Komibot
